import Mathlib

/-!
Verification of the DNS resolver speed-test engine (src/main.py) against its
natural-language specification.  The Python source is shallowly embedded:
machine floats for elapsed times become exact rationals, Python ints become
`Int`/`Nat`, dictionaries become association lists, network I/O (the
`dns.resolver.resolve` primitive) is abstracted as an oracle giving the
outcome of each resolution attempt, and `datetime.now()` timestamps are
threaded as an explicit `now : Nat` parameter.
-/

/-- Outcome of one call to the resolution primitive (`dns_resolver.resolve`)
inside `test_resolver_speed`: success with wall-clock elapsed seconds, an
NXDOMAIN / NoAnswer exception carrying `str(e)`, a timeout exception, or any
other exception carrying `str(e)`. -/
inductive Attempt where
  | success (elapsedSec : ℚ)
  | noRecord (msg : String)
  | timeoutExc
  | otherExc (msg : String)
deriving DecidableEq, Repr

/-- `DNSResult` NamedTuple from src/main.py: optional response time in
milliseconds, optional error string, timestamp. -/
structure DNSResult where
  response_time : Option ℚ
  error : Option String
  timestamp : ℕ
deriving DecidableEq, Repr

/-- Module-level constant `DEFAULT_TIMEOUT = 1.0`. -/
def DEFAULT_TIMEOUT : ℚ := 1

/-- Module-level constant `DEFAULT_MAX_RETRIES = 1`. -/
def DEFAULT_MAX_RETRIES : ℤ := 1

/-- Module-level constant `DEFAULT_MAX_WORKERS = 10`. -/
def DEFAULT_MAX_WORKERS : ℤ := 10

/-- Module-level constant `DEFAULT_MAX_CONSECUTIVE_FAILURES = 3`. -/
def DEFAULT_MAX_CONSECUTIVE_FAILURES : ℤ := 3

/-- Module-level constant `DEFAULT_MIN_SUCCESS_RATE = 0.5`. -/
def DEFAULT_MIN_SUCCESS_RATE : ℚ := 1 / 2

/-- Module-level constant `DEFAULT_QUICK_FAIL_THRESHOLD = 3`. -/
def DEFAULT_QUICK_FAIL_THRESHOLD : ℤ := 3

/-- The `Config` dataclass from src/main.py. -/
structure Config where
  timeout : ℚ := DEFAULT_TIMEOUT
  max_retries : ℤ := DEFAULT_MAX_RETRIES
  max_workers : ℤ := DEFAULT_MAX_WORKERS
  max_consecutive_failures : ℤ := DEFAULT_MAX_CONSECUTIVE_FAILURES
  min_success_rate : ℚ := DEFAULT_MIN_SUCCESS_RATE
  quick_fail_threshold : ℤ := DEFAULT_QUICK_FAIL_THRESHOLD
deriving DecidableEq, Repr

/-- The fixed `TEST_DOMAINS` catalog from src/main.py (50 domains). -/
def TEST_DOMAINS : List String :=
  ["example.com", "google.com", "amazon.com", "apple.com", "microsoft.com",
   "facebook.com", "yahoo.com", "wikipedia.org", "github.com", "stackoverflow.com",
   "netflix.com", "reddit.com", "linkedin.com", "bing.com", "quora.com",
   "twitter.com", "instagram.com", "nytimes.com", "cnn.com", "bbc.com",
   "whatsapp.com", "tiktok.com", "paypal.com", "ebay.com", "adobe.com",
   "dropbox.com", "cloudflare.com", "spotify.com", "pinterest.com", "zoom.us",
   "salesforce.com", "wordpress.com", "medium.com", "bitbucket.org", "archive.org",
   "live.com", "msn.com", "weebly.com", "mozilla.org", "oracle.com",
   "booking.com", "airbnb.com", "twitch.tv", "imgur.com", "duckduckgo.com",
   "ikea.com", "hulu.com", "bloomberg.com", "forbes.com", "telegram.org"]

/-- Python substring test `pat in s`, on character lists: some suffix of `s`
starts with `pat`. -/
def charsContain (pat : List Char) : List Char → Bool
  | [] => pat.isEmpty
  | c :: rest => pat.isPrefixOf (c :: rest) || charsContain pat rest

/-- Python substring test `pat in s` on strings. -/
def strContain (s pat : String) : Bool :=
  charsContain pat.data s.data

/-- Python `str.lower()` (on the ASCII error messages the program builds):
lowercase every character. -/
def strLower (s : String) : String :=
  ⟨s.data.map Char.toLower⟩

/-- The error message built by the timeout branch of `test_resolver_speed`:
`f"Timeout after {config.max_retries} retries"`. -/
def timeoutMsg (maxRetries : ℤ) : String :=
  "Timeout after " ++ toString maxRetries ++ " retries"

/-- The error message built by the generic exception branch of
`test_resolver_speed`: `f"Error testing {resolver.ip} with {domain}: {str(e)}"`. -/
def unexpectedMsg (ip domain msg : String) : String :=
  "Error testing " ++ ip ++ " with " ++ domain ++ ": " ++ msg

/-- The synthetic error message used by `test_resolver` when the quick-fail
breaker trips: `"Skipped after multiple failures"`. -/
def skippedMsg : String := "Skipped after multiple failures"

/-- The `for attempt in range(max_retries + 1)` loop body of
`test_resolver_speed`, over the list of remaining attempt indices.  `none`
models the Python function falling off the end of the loop and implicitly
returning `None`. -/
def speedLoop (att : ℕ → Attempt) (ip domain : String) (maxRetries : ℤ)
    (now : ℕ) : List ℕ → Option DNSResult
  | [] => none
  | a :: rest =>
    match att a with
    | .success elapsedSec =>
        some ⟨some (elapsedSec * 1000), none, now⟩
    | .noRecord msg =>
        some ⟨none, some msg, now⟩
    | .timeoutExc =>
        if (a : ℤ) = maxRetries then
          some ⟨none, some (timeoutMsg maxRetries), now⟩
        else
          speedLoop att ip domain maxRetries now rest
    | .otherExc msg =>
        some ⟨none, some (unexpectedMsg ip domain msg), now⟩

/-- `test_resolver_speed` from src/main.py: one probe of `domain` through the
resolver at `ip`, retrying timeouts up to `config.max_retries` extra times.
The resolution primitive is abstracted by `att`, mapping the attempt index to
that attempt's outcome. -/
def test_resolver_speed (att : ℕ → Attempt) (ip domain : String)
    (config : Config) (now : ℕ) : Option DNSResult :=
  speedLoop att ip domain config.max_retries now
    (List.range (config.max_retries + 1).toNat)

/-- Which `except` branch (or the success path) of `test_resolver_speed`
produced the returned result. -/
inductive ErrClass where
  | successC
  | noRecordC
  | timeoutC
  | unexpectedC
deriving DecidableEq, Repr

/-- Ghost observation of `speedLoop`: which branch terminates the loop. -/
def classLoop (att : ℕ → Attempt) (maxRetries : ℤ) : List ℕ → Option ErrClass
  | [] => none
  | a :: rest =>
    match att a with
    | .success _ => some .successC
    | .noRecord _ => some .noRecordC
    | .timeoutExc =>
        if (a : ℤ) = maxRetries then some .timeoutC
        else classLoop att maxRetries rest
    | .otherExc _ => some .unexpectedC

/-- Classification of the probe produced by `test_resolver_speed`. -/
def probe_class (att : ℕ → Attempt) (config : Config) : Option ErrClass :=
  classLoop att config.max_retries (List.range (config.max_retries + 1).toNat)

/-- Number of resolution attempts the loop of `test_resolver_speed` performs. -/
def countLoop (att : ℕ → Attempt) (maxRetries : ℤ) : List ℕ → ℕ
  | [] => 0
  | a :: rest =>
    match att a with
    | .success _ => 1
    | .noRecord _ => 1
    | .timeoutExc =>
        if (a : ℤ) = maxRetries then 1
        else 1 + countLoop att maxRetries rest
    | .otherExc _ => 1

/-- Number of resolution attempts made by a `test_resolver_speed` call. -/
def attempt_count (att : ℕ → Attempt) (config : Config) : ℕ :=
  countLoop att config.max_retries (List.range (config.max_retries + 1).toNat)

example :
    test_resolver_speed (fun _ => .timeoutExc) "8.8.8.8" "example.com" {} 7
      = some ⟨none, some "Timeout after 1 retries", 7⟩ := by decide

example :
    test_resolver_speed (fun _ => .success 1) "8.8.8.8" "example.com" {} 7
      = some ⟨some 1000, none, 7⟩ := by
  simp [test_resolver_speed, speedLoop, List.range_succ]

example :
    test_resolver_speed (fun _ => .success 1) "8.8.8.8" "example.com"
      { max_retries := -1 } 7 = none := by decide

/-- The timeout test of `test_resolver` (line 249 of src/main.py):
`result.error and "timeout" in result.error.lower()`.  An empty error string
is falsy in Python, hence the explicit nonemptiness conjunct. -/
def isQuickFailErr (r : DNSResult) : Bool :=
  match r.error with
  | none => false
  | some s => (s != "") && strContain (strLower s) "timeout"

/-- One update of `quick_fail_count` in `test_resolver` (lines 248-252):
increment on a timeout-looking error, reset to 0 otherwise. -/
def quickStep (qfc : ℕ) (r : DNSResult) : ℕ :=
  if isQuickFailErr r then qfc + 1 else 0

/-- The `for domain in TEST_DOMAINS` loop of `test_resolver`, over the
remaining domains, carrying `quick_fail_count`.  When the breaker has
tripped, every remaining slot is backfilled with the synthetic skipped
result.  A `none` probe (a `test_resolver_speed` call that returned `None`,
possible only for `max_retries < 0`) would crash the Python loop at
`result.error`; that exception is modelled as an overall `none`. -/
def resolverLoop (att : String → ℕ → Attempt) (ip : String) (config : Config)
    (now : ℕ) : ℕ → List String → Option (List DNSResult)
  | _, [] => some []
  | qfc, d :: rest =>
    if DEFAULT_QUICK_FAIL_THRESHOLD ≤ (qfc : ℤ) then
      some ((d :: rest).map fun _ => ⟨none, some skippedMsg, now⟩)
    else
      match test_resolver_speed (att d) ip d config now with
      | none => none
      | some r =>
          (resolverLoop att ip config now (quickStep qfc r) rest).map (r :: ·)

/-- `test_resolver` from src/main.py: probe every domain of `TEST_DOMAINS`
in catalog order for the resolver at `ip`, driving the quick-fail breaker.
`att d i` is the outcome of attempt number `i` of the probe for domain `d`. -/
def test_resolver (att : String → ℕ → Attempt) (ip : String) (config : Config)
    (now : ℕ) : Option (List DNSResult) :=
  resolverLoop att ip config now 0 TEST_DOMAINS

/-- Python `failure_history.get(ip, 0)` on the association-list model of the
history dictionary. -/
def histGet (history : List (String × ℤ)) (ip : String) : ℤ :=
  (List.lookup ip history).getD 0

/-- Python `history[ip] = v`: replace the binding if the key is present,
otherwise add it. -/
def histSet : List (String × ℤ) → String → ℤ → List (String × ℤ)
  | [], ip, v => [(ip, v)]
  | (k, w) :: rest, ip, v =>
      if k = ip then (ip, v) :: rest else (k, w) :: histSet rest ip v

/-- `should_drop_resolver` from src/main.py.  Note that it compares against
the module constant `DEFAULT_MAX_CONSECUTIVE_FAILURES`, not against the
`Config` field. -/
def should_drop_resolver (ip : String) (failure_history : List (String × ℤ)) : Bool :=
  DEFAULT_MAX_CONSECUTIVE_FAILURES ≤ histGet failure_history ip

/-- `update_failure_history` from src/main.py. -/
def update_failure_history (ip : String) (success : Bool)
    (history : List (String × ℤ)) : List (String × ℤ) :=
  if success then histSet history ip 0
  else histSet history ip (histGet history ip + 1)

/-- The eligibility filter from `main` (line 275): resolvers kept for this
run, by address. -/
def active_resolvers (resolvers : List String)
    (failure_history : List (String × ℤ)) : List String :=
  resolvers.filter (fun ip => !should_drop_resolver ip failure_history)

/-- The dropped-resolver report from `main` (line 276), by address. -/
def dropped_resolvers (resolvers : List String)
    (failure_history : List (String × ℤ)) : List String :=
  resolvers.filter (fun ip => should_drop_resolver ip failure_history)

/-- `[r.response_time for r in results if r.response_time is not None]`. -/
def valid_times (results : List DNSResult) : List ℚ :=
  results.filterMap (·.response_time)

/-- Python `statistics.mean`. -/
def listMean (l : List ℚ) : ℚ := l.sum / l.length

/-- Python `min` over a nonempty list (0 on the empty list, never reached by
the guarded callers). -/
def listMin : List ℚ → ℚ
  | [] => 0
  | x :: xs => xs.foldl min x

/-- Python `max` over a nonempty list (0 on the empty list, never reached by
the guarded callers). -/
def listMax : List ℚ → ℚ
  | [] => 0
  | x :: xs => xs.foldl max x

/-- Python `statistics.median`: sort ascending; middle element for odd
length, average of the two middle elements for even length. -/
def listMedian (l : List ℚ) : ℚ :=
  let s := List.insertionSort (· ≤ ·) l
  let n := l.length
  if n % 2 = 1 then s.getD (n / 2) 0
  else (s.getD (n / 2 - 1) 0 + s.getD (n / 2) 0) / 2

/-- The sample variance underlying Python `statistics.stdev`:
`Σ (x - mean)² / (n - 1)`. -/
def sampleVariance (l : List ℚ) : ℚ :=
  ((l.map (fun x => (x - listMean l) ^ 2)).sum) / ((l.length : ℚ) - 1)

/-- The `Statistics` dataclass from src/main.py. -/
structure Statistics where
  min_time : ℚ
  max_time : ℚ
  avg_time : ℚ
  median_time : ℚ
  std_dev : ℝ
  success_rate : ℚ
  total_queries : ℕ
  timestamp : ℕ

/-- `Statistics.from_results` from src/main.py.  `std_dev` is
`statistics.stdev`, the square root of the sample variance, guarded to 0 for
fewer than two samples. -/
noncomputable def Statistics.from_results (results : List DNSResult)
    (now : ℕ) : Statistics :=
  let vt := valid_times results
  if vt = [] then ⟨0, 0, 0, 0, 0, 0, results.length, now⟩
  else
    ⟨listMin vt, listMax vt, listMean vt, listMedian vt,
     if 1 < vt.length then Real.sqrt (sampleVariance vt) else 0,
     (vt.length : ℚ) / (results.length : ℚ), results.length, now⟩

/-- `calculate_statistics` from src/main.py: `(avg_time, success_count)`. -/
def calculate_statistics (results : List DNSResult) : Option ℚ × ℕ :=
  let vt := valid_times results
  (if vt.isEmpty then none else some (listMean vt), vt.length)

/-- The run-outcome classification in `main` (line 335):
`success = avg_time is not None and success_count > 0`. -/
def run_success (results : List DNSResult) : Bool :=
  (calculate_statistics results).1.isSome
    && decide (0 < (calculate_statistics results).2)

/-- The per-completion failure-history update in `main` (lines 330-336). -/
def process_completion (ip : String) (results : List DNSResult)
    (history : List (String × ℤ)) : List (String × ℤ) :=
  update_failure_history ip (run_success results) history

/-- How a `main` invocation ends (lines 263-398 of src/main.py). -/
inductive RunEnd where
  | normal
  | interrupted
  | internalFault
deriving DecidableEq, Repr

/-- The process exit status of `main`: falling off the end gives status 0;
the `KeyboardInterrupt` handler and the generic `Exception` handler both
call `sys.exit(1)`. -/
def exit_status : RunEnd → ℕ
  | .normal => 0
  | .interrupted => 1
  | .internalFault => 1


/-! ## Helper lemmas -/

lemma resolverLoop_length (att : String → ℕ → Attempt) (ip : String)
    (c : Config) (now : ℕ) :
    ∀ (doms : List String) (qfc : ℕ) (rs : List DNSResult),
      resolverLoop att ip c now qfc doms = some rs → rs.length = doms.length := by
  intro doms
  induction doms with
  | nil =>
      intro qfc rs h
      simp only [resolverLoop, Option.some.injEq] at h
      simp [← h]
  | cons d rest ih =>
      intro qfc rs h
      simp only [resolverLoop] at h
      by_cases hq : DEFAULT_QUICK_FAIL_THRESHOLD ≤ (qfc : ℤ)
      · rw [if_pos hq] at h
        obtain rfl := Option.some_inj.mp h
        simp
      · rw [if_neg hq] at h
        cases hs : test_resolver_speed (att d) ip d c now with
        | none => rw [hs] at h; simp at h
        | some r =>
            rw [hs] at h
            simp only [Option.map_eq_some'] at h
            obtain ⟨rs', hrs', rfl⟩ := h
            simp [ih _ _ hrs']

lemma histGet_histSet (history : List (String × ℤ)) (ip : String) (v : ℤ) :
    histGet (histSet history ip v) ip = v := by
  induction history with
  | nil => simp [histGet, histSet, List.lookup]
  | cons kw rest ih =>
      obtain ⟨k, w⟩ := kw
      by_cases hk : k = ip
      · simp [histGet, histSet, hk, List.lookup]
      · have hne : (ip == k) = false := by
          simp [beq_iff_eq]
          exact fun h => hk h.symm
        simp only [histSet, if_neg hk]
        simpa [histGet, List.lookup, hne] using ih

lemma run_success_iff (results : List DNSResult) :
    run_success results = true ↔ ∃ r ∈ results, r.response_time.isSome := by
  constructor
  · intro h
    simp only [run_success, calculate_statistics, Bool.and_eq_true,
      decide_eq_true_eq] at h
    obtain ⟨-, hlen⟩ := h
    have hne : valid_times results ≠ [] := by
      intro hnil
      rw [valid_times] at hnil
      rw [valid_times, hnil] at hlen
      simp at hlen
    rw [valid_times, Ne, List.filterMap_eq_nil_iff] at hne
    push_neg at hne
    obtain ⟨r, hr, hrt⟩ := hne
    exact ⟨r, hr, Option.ne_none_iff_isSome.mp hrt⟩
  · intro ⟨r, hr, hrt⟩
    have hne : valid_times results ≠ [] := by
      rw [valid_times, Ne, List.filterMap_eq_nil_iff]
      push_neg
      exact ⟨r, hr, Option.ne_none_iff_isSome.mpr hrt⟩
    have hempty : (valid_times results).isEmpty = false := by
      cases h : (valid_times results).isEmpty
      · rfl
      · exact absurd (List.isEmpty_iff.mp h) hne
    simp only [run_success, calculate_statistics, hempty, Bool.ite_eq_true_distrib]
    simp only [Bool.and_eq_true, decide_eq_true_eq]
    constructor
    · simp [hempty]
    · exact List.length_pos.mpr hne

/-! ## C1: the quick-fail trip decision ignores `config.quick_fail_threshold` -/

/-- C1: with `quick_fail_threshold` configured to 1 and a resolver that times
out on every attempt, `test_resolver` still issues three probes (three
`Timeout` results) before backfilling the remaining 47 slots with `Skipped`
results: the trip decision compares against the module constant
`DEFAULT_QUICK_FAIL_THRESHOLD = 3`, not against
`config.quick_fail_threshold`.  Raising the configured threshold to 40 does
not change the result either. -/
theorem quick_fail_trip_uses_fixed_constant :
    test_resolver (fun _ _ => .timeoutExc) "8.8.8.8"
        { quick_fail_threshold := 1, max_retries := 0 } 0
      = some (List.replicate 3 ⟨none, some (timeoutMsg 0), 0⟩
          ++ List.replicate 47 ⟨none, some skippedMsg, 0⟩) ∧
    test_resolver (fun _ _ => .timeoutExc) "8.8.8.8"
        { quick_fail_threshold := 1, max_retries := 0 } 0
      = test_resolver (fun _ _ => .timeoutExc) "8.8.8.8"
        { quick_fail_threshold := 40, max_retries := 0 } 0 := by
  constructor
  · decide
  · decide

/-! ## C2: the eligibility decision ignores `config.max_consecutive_failures` -/

/-- C2: a resolver with stored consecutive-failure count 2 is kept for
scheduling even though a configured `max_consecutive_failures = 1` would
demand dropping it: `should_drop_resolver` compares against the module
constant `DEFAULT_MAX_CONSECUTIVE_FAILURES = 3` and takes no configuration
at all. -/
theorem drop_decision_uses_fixed_constant :
    should_drop_resolver "8.8.8.8" [("8.8.8.8", 2)] = false ∧
    active_resolvers ["8.8.8.8"] [("8.8.8.8", 2)] = ["8.8.8.8"] ∧
    dropped_resolvers ["8.8.8.8"] [("8.8.8.8", 2)] = [] ∧
    should_drop_resolver "8.8.8.8" [("8.8.8.8", 3)] = true := by
  refine ⟨by decide, by decide, by decide, by decide⟩

/-! ## C6: RunResult length always equals the domain catalog length -/

/-- C6: whenever `test_resolver` completes with a result list, that list has
exactly one entry per catalog domain, whether or not the quick-fail breaker
tripped. -/
theorem run_result_length (att : String → ℕ → Attempt) (ip : String)
    (c : Config) (now : ℕ) (rs : List DNSResult)
    (h : test_resolver att ip c now = some rs) :
    rs.length = TEST_DOMAINS.length :=
  resolverLoop_length att ip c now TEST_DOMAINS 0 rs h

/-- Witness for C6 at a concrete tripped run: three timeouts followed by 47
skipped slots, 50 entries in all. -/
theorem run_result_length_witness :
    (List.replicate 3 (⟨none, some (timeoutMsg 0), 0⟩ : DNSResult)
      ++ List.replicate 47 (⟨none, some skippedMsg, 0⟩ : DNSResult)).length
      = TEST_DOMAINS.length :=
  run_result_length (fun _ _ => .timeoutExc) "8.8.8.8" { max_retries := 0 } 0 _
    (by decide)

/-! ## C8: exit statuses -/

/-- C8 counterexample: user interrupt and unhandled internal error exit with
the same status (both `sys.exit(1)`), contradicting the requirement of three
mutually distinguishable statuses. -/
theorem exit_status_collision :
    exit_status .interrupted = exit_status .internalFault ∧
    exit_status .interrupted = 1 := by
  exact ⟨rfl, rfl⟩

/-- C8 (amended): the process uses exactly two distinguishable exit
statuses: 0 for normal completion and 1 for both user interrupt and
unhandled internal error; normal completion is distinguishable from each,
but interrupt and internal error share status 1. -/
theorem exit_status_two_values :
    exit_status .normal = 0 ∧ exit_status .interrupted = 1 ∧
    exit_status .internalFault = 1 ∧
    exit_status .normal ≠ exit_status .interrupted ∧
    exit_status .normal ≠ exit_status .internalFault := by
  refine ⟨rfl, rfl, rfl, by decide, by decide⟩

/-! ## C10: totality of the probe executor -/

/-- C10 part for negative retry budgets is immediate; the positive part
needs the loop to terminate inside the range. -/
lemma speedLoop_isSome (att : ℕ → Attempt) (ip d : String) (now m : ℕ) :
    ∀ (k s : ℕ), 1 ≤ k → s + k = m + 1 →
      (speedLoop att ip d (m : ℤ) now (List.range' s k)).isSome := by
  intro k
  induction k with
  | zero => intro s h1 _; omega
  | succ k ih =>
      intro s _ hsum
      rw [List.range'_succ]
      cases hatt : att s with
      | success t => simp [speedLoop, hatt]
      | noRecord msg => simp [speedLoop, hatt]
      | otherExc msg => simp [speedLoop, hatt]
      | timeoutExc =>
          by_cases hs : (s : ℤ) = (m : ℤ)
          · simp [speedLoop, hatt, hs]
          · have hsm : s ≠ m := by intro h; exact hs (by rw [h])
            have hk : 1 ≤ k := by omega
            simpa [speedLoop, hatt, hs] using ih (s + 1) hk (by omega)

/-- C10: `test_resolver_speed` returns a `DNSResult` for every attempt
oracle precisely when `max_retries ≥ 0`; for `max_retries < 0` the
`for attempt in range(max_retries + 1)` loop body never runs and the
function returns `None`. -/
theorem probe_executor_totality (att : ℕ → Attempt) (ip d : String)
    (c : Config) (now : ℕ) :
    (0 ≤ c.max_retries → (test_resolver_speed att ip d c now).isSome) ∧
    (c.max_retries < 0 → test_resolver_speed att ip d c now = none) := by
  constructor
  · intro h0
    have hm : c.max_retries = ((c.max_retries.toNat : ℤ)) :=
      (Int.toNat_of_nonneg h0).symm
    have hn : (c.max_retries + 1).toNat = c.max_retries.toNat + 1 := by omega
    rw [test_resolver_speed, hn, List.range_eq_range', hm]
    exact speedLoop_isSome att ip d now c.max_retries.toNat
      (c.max_retries.toNat + 1) 0 (by omega) (by omega)
  · intro hneg
    have hn : (c.max_retries + 1).toNat = 0 := by omega
    rw [test_resolver_speed, hn]
    rfl

/-- Witness for C10: with the default configuration (`max_retries = 1`) an
all-timeout oracle still yields a result, and with `max_retries = -1` the
executor yields `None`. -/
theorem probe_executor_totality_witness :
    (test_resolver_speed (fun _ => .timeoutExc) "8.8.8.8" "example.com" {} 0).isSome ∧
    test_resolver_speed (fun _ => .timeoutExc) "8.8.8.8" "example.com"
      { max_retries := -1 } 0 = none :=
  ⟨(probe_executor_totality (fun _ => .timeoutExc) "8.8.8.8" "example.com" {} 0).1
      (by decide),
   (probe_executor_totality (fun _ => .timeoutExc) "8.8.8.8" "example.com"
      { max_retries := -1 } 0).2 (by decide)⟩

/-! ## C5: the failure-history update rule -/

/-- C5: after a scheduled resolver's run completes, its stored counter is 0
if some probe had a present response time, and its old value (0 when the
resolver was absent from the history) plus 1 otherwise. -/
theorem failure_history_update_rule (ip : String) (results : List DNSResult)
    (history : List (String × ℤ)) :
    histGet (process_completion ip results history) ip
      = if ∃ r ∈ results, r.response_time.isSome then 0
        else histGet history ip + 1 := by
  by_cases hex : ∃ r ∈ results, r.response_time.isSome = true
  · have hs : run_success results = true := (run_success_iff results).mpr hex
    simp [process_completion, update_failure_history, hs, histGet_histSet, hex]
  · have hs : run_success results = false := by
      cases h : run_success results
      · rfl
      · exact absurd ((run_success_iff results).mp h) hex
    simp [process_completion, update_failure_history, hs, histGet_histSet, hex]

/-! ## C9: `min_success_rate` is never consulted -/

lemma test_resolver_speed_congr (att : ℕ → Attempt) (ip d : String) (now : ℕ)
    {c₁ c₂ : Config} (hm : c₁.max_retries = c₂.max_retries) :
    test_resolver_speed att ip d c₁ now = test_resolver_speed att ip d c₂ now := by
  simp [test_resolver_speed, hm]

lemma resolverLoop_congr (att : String → ℕ → Attempt) (ip : String) (now : ℕ)
    {c₁ c₂ : Config} (hm : c₁.max_retries = c₂.max_retries) :
    ∀ (doms : List String) (qfc : ℕ),
      resolverLoop att ip c₁ now qfc doms = resolverLoop att ip c₂ now qfc doms := by
  intro doms
  induction doms with
  | nil => intro qfc; rfl
  | cons d rest ih =>
      intro qfc
      simp only [resolverLoop]
      rw [test_resolver_speed_congr (att d) ip d now hm]
      by_cases hq : DEFAULT_QUICK_FAIL_THRESHOLD ≤ (qfc : ℤ)
      · simp [hq]
      · simp only [if_neg hq]
        cases test_resolver_speed (att d) ip d c₂ now with
        | none => rfl
        | some r => simp [ih]

/-- C9: two configurations that agree on every field except
`min_success_rate` are indistinguishable to the probe executor, its attempt
count and branch classification, and the whole resolver task; the remaining
core operations (`should_drop_resolver`, `Statistics.from_results`,
`calculate_statistics`, `update_failure_history`) take no configuration at
all, so `min_success_rate` influences no decision path. -/
theorem min_success_rate_never_consulted (c₁ c₂ : Config)
    (ht : c₁.timeout = c₂.timeout)
    (hr : c₁.max_retries = c₂.max_retries)
    (hw : c₁.max_workers = c₂.max_workers)
    (hf : c₁.max_consecutive_failures = c₂.max_consecutive_failures)
    (hq : c₁.quick_fail_threshold = c₂.quick_fail_threshold) :
    (∀ att ip d now, test_resolver_speed att ip d c₁ now
        = test_resolver_speed att ip d c₂ now) ∧
    (∀ att, probe_class att c₁ = probe_class att c₂) ∧
    (∀ att, attempt_count att c₁ = attempt_count att c₂) ∧
    (∀ att ip now, test_resolver att ip c₁ now = test_resolver att ip c₂ now) := by
  refine ⟨?_, ?_, ?_, ?_⟩
  · intro att ip d now
    exact test_resolver_speed_congr att ip d now hr
  · intro att
    simp [probe_class, hr]
  · intro att
    simp [attempt_count, hr]
  · intro att ip now
    exact resolverLoop_congr att ip now hr TEST_DOMAINS 0

/-- Witness for C9: the default configuration and the same configuration
with `min_success_rate` lowered to 0 give identical resolver-task output on
a concrete oracle. -/
theorem min_success_rate_never_consulted_witness :
    test_resolver (fun _ _ => .success 1) "8.8.8.8" {} 0
      = test_resolver (fun _ _ => .success 1) "8.8.8.8"
          { min_success_rate := 0 } 0 :=
  (min_success_rate_never_consulted {} { min_success_rate := 0 }
      rfl rfl rfl rfl rfl).2.2.2 (fun _ _ => .success 1) "8.8.8.8" 0

/-! ## C3: what actually increments the quick-fail counter -/

lemma isPrefixOf_append (p : List Char) :
    ∀ (a b : List Char), p.isPrefixOf a = true → p.isPrefixOf (a ++ b) = true := by
  induction p with
  | nil => intro a b _; simp [List.isPrefixOf]
  | cons c cs ih =>
      intro a b h
      cases a with
      | nil => simp [List.isPrefixOf] at h
      | cons x xs =>
          simp only [List.cons_append, List.isPrefixOf, Bool.and_eq_true] at h ⊢
          exact ⟨h.1, ih xs b h.2⟩

lemma charsContain_of_isPrefixOf (p s : List Char)
    (h : p.isPrefixOf s = true) : charsContain p s = true := by
  cases s with
  | nil =>
      cases p with
      | nil => rfl
      | cons c cs => simp [List.isPrefixOf] at h
  | cons c rest => simp [charsContain, h]

/-- Every `Timeout`-class error message looks like a timeout to the breaker:
its lowercased text starts with `"timeout"`, for every retry budget. -/
lemma quickStep_timeoutMsg (mr : ℤ) (qfc now : ℕ) :
    quickStep qfc ⟨none, some (timeoutMsg mr), now⟩ = qfc + 1 := by
  have h1 : (timeoutMsg mr).data
      = "Timeout after ".data ++ ((toString mr).data ++ " retries".data) := by
    simp [timeoutMsg, String.data_append, List.append_assoc]
  have h2 : (strLower (timeoutMsg mr)).data
      = ("Timeout after ".data.map Char.toLower)
          ++ (((toString mr).data ++ " retries".data).map Char.toLower) := by
    simp [strLower, h1, List.map_append]
  have h3 : "Timeout after ".data.map Char.toLower = "timeout after ".data := by
    decide
  have h4 : ("timeout".data).isPrefixOf ((strLower (timeoutMsg mr)).data) = true := by
    rw [h2, h3]
    exact isPrefixOf_append _ _ _ (by decide)
  have h5 : strContain (strLower (timeoutMsg mr)) "timeout" = true :=
    charsContain_of_isPrefixOf _ _ h4
  have h6 : (timeoutMsg mr != "") = true := by
    rw [bne_iff_ne]
    intro he
    have hlen : (timeoutMsg mr).data.length ≠ 0 := by rw [h1]; simp
    exact hlen (by rw [he]; rfl)
  simp [quickStep, isQuickFailErr, h5, h6]

/-- Relation between the branch classification and the value produced by the
retry loop of `test_resolver_speed`. -/
lemma classLoop_speedLoop (att : ℕ → Attempt) (ip d : String) (mr : ℤ)
    (now : ℕ) :
    ∀ l : List ℕ,
      (classLoop att mr l = some .successC →
        ∃ t, speedLoop att ip d mr now l = some ⟨some t, none, now⟩) ∧
      (classLoop att mr l = some .noRecordC →
        ∃ m, speedLoop att ip d mr now l = some ⟨none, some m, now⟩) ∧
      (classLoop att mr l = some .timeoutC →
        speedLoop att ip d mr now l = some ⟨none, some (timeoutMsg mr), now⟩) ∧
      (classLoop att mr l = some .unexpectedC →
        ∃ m, speedLoop att ip d mr now l
          = some ⟨none, some (unexpectedMsg ip d m), now⟩) := by
  intro l
  induction l with
  | nil => simp [classLoop, speedLoop]
  | cons a rest ih =>
      cases hatt : att a with
      | success t =>
          refine ⟨fun _ => ⟨t * 1000, ?_⟩, fun h => ?_, fun h => ?_, fun h => ?_⟩
          · simp [speedLoop, hatt]
          all_goals simp [classLoop, hatt] at h
      | noRecord msg =>
          refine ⟨fun h => ?_, fun _ => ⟨msg, ?_⟩, fun h => ?_, fun h => ?_⟩
          · simp [classLoop, hatt] at h
          · simp [speedLoop, hatt]
          all_goals simp [classLoop, hatt] at h
      | otherExc msg =>
          refine ⟨fun h => ?_, fun h => ?_, fun h => ?_, fun _ => ⟨msg, ?_⟩⟩
          · simp [classLoop, hatt] at h
          · simp [classLoop, hatt] at h
          · simp [classLoop, hatt] at h
          · simp [speedLoop, hatt]
      | timeoutExc =>
          by_cases hmr : (a : ℤ) = mr
          · refine ⟨fun h => ?_, fun h => ?_, fun _ => ?_, fun h => ?_⟩
            · simp [classLoop, hatt, hmr] at h
            · simp [classLoop, hatt, hmr] at h
            · simp [speedLoop, hatt, hmr]
            · simp [classLoop, hatt, hmr] at h
          · have hcl : classLoop att mr (a :: rest) = classLoop att mr rest := by
              simp [classLoop, hatt, hmr]
            have hsp : speedLoop att ip d mr now (a :: rest)
                = speedLoop att ip d mr now rest := by
              simp [speedLoop, hatt, hmr]
            rw [hcl, hsp]
            exact ih

/-- C3 (amended): the quick-fail counter increments exactly when the probe
result carries a nonempty error message whose lowercased text contains the
substring `"timeout"`.  Consequences per class: a `Timeout`-class result
always increments the counter; a success always resets it; a `NoRecord`- or
`Unexpected`-class result resets it only when its message does not contain
`"timeout"`. -/
theorem breaker_step_by_class (att : ℕ → Attempt) (ip d : String) (c : Config)
    (now qfc : ℕ) (r : DNSResult) (cl : ErrClass)
    (hr : test_resolver_speed att ip d c now = some r)
    (hc : probe_class att c = some cl) :
    (cl = .timeoutC → quickStep qfc r = qfc + 1) ∧
    (cl = .successC → quickStep qfc r = 0) ∧
    (cl = .noRecordC ∨ cl = .unexpectedC →
      ∃ m, r.error = some m ∧
        (strContain (strLower m) "timeout" = false → quickStep qfc r = 0)) := by
  have hspec := classLoop_speedLoop att ip d c.max_retries now
    (List.range (c.max_retries + 1).toNat)
  rw [test_resolver_speed] at hr
  rw [probe_class] at hc
  refine ⟨?_, ?_, ?_⟩
  · rintro rfl
    have h := hspec.2.2.1 hc
    rw [hr] at h
    obtain rfl := Option.some_inj.mp h
    exact quickStep_timeoutMsg c.max_retries qfc now
  · rintro rfl
    obtain ⟨t, h⟩ := hspec.1 hc
    rw [hr] at h
    obtain rfl := Option.some_inj.mp h
    simp [quickStep, isQuickFailErr]
  · rintro (rfl | rfl)
    · obtain ⟨m, h⟩ := hspec.2.1 hc
      rw [hr] at h
      obtain rfl := Option.some_inj.mp h
      exact ⟨m, rfl, fun hf => by simp [quickStep, isQuickFailErr, hf]⟩
    · obtain ⟨m, h⟩ := hspec.2.2.2 hc
      rw [hr] at h
      obtain rfl := Option.some_inj.mp h
      exact ⟨unexpectedMsg ip d m, rfl,
        fun hf => by simp [quickStep, isQuickFailErr, hf]⟩

/-- C3 counterexample: an `Unexpected`-class probe result (produced by the
generic exception branch) whose underlying exception text contains
`"timeout"` increments the quick-fail counter instead of resetting it. -/
theorem unexpected_error_increments_breaker :
    test_resolver_speed (fun _ => .otherExc "socket timeout") "8.8.8.8"
        "example.com" { max_retries := 0 } 0
      = some ⟨none,
          some (unexpectedMsg "8.8.8.8" "example.com" "socket timeout"), 0⟩ ∧
    probe_class (fun _ => .otherExc "socket timeout") { max_retries := 0 }
      = some .unexpectedC ∧
    quickStep 0
      ⟨none, some (unexpectedMsg "8.8.8.8" "example.com" "socket timeout"), 0⟩
      = 1 := by
  refine ⟨by decide, by decide, by decide⟩

/-- Witness for C3's amended theorem at a concrete timeout-class probe. -/
theorem breaker_step_by_class_witness :
    quickStep 1 ⟨none, some (timeoutMsg 0), 5⟩ = 2 :=
  (breaker_step_by_class (fun _ => .timeoutExc) "8.8.8.8" "example.com"
      { max_retries := 0 } 5 1 ⟨none, some (timeoutMsg 0), 5⟩ .timeoutC
      (by decide) (by decide)).1 rfl

/-! ## C7: the retry contract of the probe executor -/

lemma countLoop_le_length (att : ℕ → Attempt) (mr : ℤ) :
    ∀ l : List ℕ, countLoop att mr l ≤ l.length := by
  intro l
  induction l with
  | nil => simp [countLoop]
  | cons a rest ih =>
      cases hatt : att a with
      | success t => simp [countLoop, hatt]
      | noRecord msg => simp [countLoop, hatt]
      | otherExc msg => simp [countLoop, hatt]
      | timeoutExc =>
          by_cases hmr : (a : ℤ) = mr
          · simp [countLoop, hatt, hmr]
          · simp only [countLoop, hatt, if_neg hmr, List.length_cons]
            omega

lemma speedLoop_timeout_all (att : ℕ → Attempt)
    (hT : ∀ i, att i = .timeoutExc) (ip d : String) (now m : ℕ) :
    ∀ (k s : ℕ), 1 ≤ k → s + k = m + 1 →
      speedLoop att ip d (m : ℤ) now (List.range' s k)
          = some ⟨none, some (timeoutMsg (m : ℤ)), now⟩ ∧
      countLoop att (m : ℤ) (List.range' s k) = k := by
  intro k
  induction k with
  | zero => intro s h1 _; omega
  | succ k ih =>
      intro s _ hsum
      rw [List.range'_succ]
      by_cases hs : (s : ℤ) = (m : ℤ)
      · have hs' : s = m := by exact_mod_cast hs
        have hk0 : k = 0 := by omega
        subst hk0
        exact ⟨by simp [speedLoop, hT s, hs], by simp [countLoop, hT s, hs]⟩
      · have hs' : s ≠ m := by intro h; exact hs (by rw [h])
        have hk : 1 ≤ k := by omega
        have h := ih (s + 1) hk (by omega)
        constructor
        · simpa [speedLoop, hT s, hs] using h.1
        · simp only [countLoop, hT s, if_neg hs]
          rw [h.2]
          omega

/-- C7: for `max_retries ≥ 0` the probe executor makes at most
`max_retries + 1` attempts; a NoRecord-class failure on the first attempt
returns immediately after one attempt; so does any other (non-timeout)
failure, with the `Unexpected` message; an attempt that times out with
retries remaining just continues the loop; and when every attempt times out,
the last attempt returns the `Timeout`-classified error after exactly
`max_retries + 1` attempts. -/
theorem probe_executor_retry_contract (att : ℕ → Attempt) (ip d : String)
    (c : Config) (now : ℕ) (h0 : 0 ≤ c.max_retries) :
    ((attempt_count att c : ℤ) ≤ c.max_retries + 1) ∧
    (∀ msg, att 0 = .noRecord msg →
      test_resolver_speed att ip d c now = some ⟨none, some msg, now⟩ ∧
      attempt_count att c = 1) ∧
    (∀ msg, att 0 = .otherExc msg →
      test_resolver_speed att ip d c now
          = some ⟨none, some (unexpectedMsg ip d msg), now⟩ ∧
      attempt_count att c = 1) ∧
    (∀ (a : ℕ) (rest : List ℕ), att a = .timeoutExc → (a : ℤ) ≠ c.max_retries →
      speedLoop att ip d c.max_retries now (a :: rest)
        = speedLoop att ip d c.max_retries now rest) ∧
    ((∀ i, att i = .timeoutExc) →
      test_resolver_speed att ip d c now
          = some ⟨none, some (timeoutMsg c.max_retries), now⟩ ∧
      (attempt_count att c : ℤ) = c.max_retries + 1) := by
  have hm : c.max_retries = ((c.max_retries.toNat : ℤ)) :=
    (Int.toNat_of_nonneg h0).symm
  have hn : (c.max_retries + 1).toNat = c.max_retries.toNat + 1 := by omega
  have hhead : List.range (c.max_retries + 1).toNat
      = 0 :: List.range' 1 c.max_retries.toNat := by
    rw [hn, List.range_eq_range', List.range'_succ]
  refine ⟨?_, ?_, ?_, ?_, ?_⟩
  · have hle := countLoop_le_length att c.max_retries
      (List.range (c.max_retries + 1).toNat)
    rw [List.length_range] at hle
    rw [attempt_count]
    omega
  · intro msg hmsg
    constructor
    · rw [test_resolver_speed, hhead]
      simp [speedLoop, hmsg]
    · rw [attempt_count, hhead]
      simp [countLoop, hmsg]
  · intro msg hmsg
    constructor
    · rw [test_resolver_speed, hhead]
      simp [speedLoop, hmsg]
    · rw [attempt_count, hhead]
      simp [countLoop, hmsg]
  · intro a rest hmsg hne
    simp [speedLoop, hmsg, hne]
  · intro hT
    obtain ⟨m, hm'⟩ : ∃ m : ℕ, c.max_retries = (m : ℤ) :=
      ⟨c.max_retries.toNat, (Int.toNat_of_nonneg h0).symm⟩
    have hrange : List.range (c.max_retries + 1).toNat = List.range' 0 (m + 1) := by
      have hnn : ((m : ℤ) + 1).toNat = m + 1 := by omega
      rw [hm', hnn, List.range_eq_range']
    have h := speedLoop_timeout_all att hT ip d now m (m + 1) 0
      (by omega) (by omega)
    refine ⟨?_, ?_⟩
    · rw [test_resolver_speed, hrange, hm']
      exact h.1
    · rw [attempt_count, hrange, hm', h.2]
      push_cast
      ring

/-- Witness for C7 with the default configuration (`max_retries = 1`) and an
all-timeout oracle: the executor returns the Timeout-classified error and
makes `max_retries + 1` attempts. -/
theorem probe_executor_retry_contract_witness :
    test_resolver_speed (fun _ => .timeoutExc) "8.8.8.8" "example.com" {} 3
        = some ⟨none, some (timeoutMsg ({} : Config).max_retries), 3⟩ ∧
    (attempt_count (fun _ => .timeoutExc) ({} : Config) : ℤ)
        = ({} : Config).max_retries + 1 :=
  (probe_executor_retry_contract (fun _ => .timeoutExc) "8.8.8.8" "example.com"
      {} 3 (by decide)).2.2.2.2 (fun _ => rfl)

/-! ## C4: the statistics reduction -/

lemma foldl_min_mem : ∀ (xs : List ℚ) (x : ℚ), xs.foldl min x ∈ x :: xs := by
  intro xs
  induction xs with
  | nil => intro x; simp
  | cons y ys ih =>
      intro x
      rw [List.foldl_cons]
      rcases List.mem_cons.mp (ih (min x y)) with h1 | h2
      · rcases min_choice x y with hxy | hxy
        · rw [h1, hxy]; simp
        · rw [h1, hxy]; simp
      · simp only [List.mem_cons]
        exact Or.inr (Or.inr h2)

lemma foldl_min_le : ∀ (xs : List ℚ) (x a : ℚ), a ∈ x :: xs → xs.foldl min x ≤ a := by
  intro xs
  induction xs with
  | nil =>
      intro x a ha
      simp only [List.mem_cons, List.not_mem_nil, or_false] at ha
      simp [List.foldl_nil, ha]
  | cons y ys ih =>
      intro x a ha
      rw [List.foldl_cons]
      rcases List.mem_cons.mp ha with rfl | ha'
      · calc ys.foldl min (min a y) ≤ min a y :=
              ih (min a y) (min a y) (List.mem_cons_self _ _)
          _ ≤ a := min_le_left _ _
      · rcases List.mem_cons.mp ha' with rfl | ha''
        · calc ys.foldl min (min x a) ≤ min x a :=
                ih (min x a) (min x a) (List.mem_cons_self _ _)
            _ ≤ a := min_le_right _ _
        · exact ih (min x y) a (List.mem_cons.mpr (Or.inr ha''))

lemma foldl_max_mem : ∀ (xs : List ℚ) (x : ℚ), xs.foldl max x ∈ x :: xs := by
  intro xs
  induction xs with
  | nil => intro x; simp
  | cons y ys ih =>
      intro x
      rw [List.foldl_cons]
      rcases List.mem_cons.mp (ih (max x y)) with h1 | h2
      · rcases max_choice x y with hxy | hxy
        · rw [h1, hxy]; simp
        · rw [h1, hxy]; simp
      · simp only [List.mem_cons]
        exact Or.inr (Or.inr h2)

lemma foldl_le_max : ∀ (xs : List ℚ) (x a : ℚ), a ∈ x :: xs → a ≤ xs.foldl max x := by
  intro xs
  induction xs with
  | nil =>
      intro x a ha
      simp only [List.mem_cons, List.not_mem_nil, or_false] at ha
      simp [List.foldl_nil, ha]
  | cons y ys ih =>
      intro x a ha
      rw [List.foldl_cons]
      rcases List.mem_cons.mp ha with rfl | ha'
      · calc a ≤ max a y := le_max_left _ _
          _ ≤ ys.foldl max (max a y) :=
              ih (max a y) (max a y) (List.mem_cons_self _ _)
      · rcases List.mem_cons.mp ha' with rfl | ha''
        · calc a ≤ max x a := le_max_right _ _
            _ ≤ ys.foldl max (max x a) :=
                ih (max x a) (max x a) (List.mem_cons_self _ _)
        · exact ih (max x y) a (List.mem_cons.mpr (Or.inr ha''))

lemma listMin_mem (l : List ℚ) (h : l ≠ []) : listMin l ∈ l := by
  cases l with
  | nil => exact absurd rfl h
  | cons x xs => exact foldl_min_mem xs x

lemma listMin_le (l : List ℚ) (a : ℚ) (ha : a ∈ l) : listMin l ≤ a := by
  cases l with
  | nil => simp at ha
  | cons x xs => exact foldl_min_le xs x a ha

lemma listMax_mem (l : List ℚ) (h : l ≠ []) : listMax l ∈ l := by
  cases l with
  | nil => exact absurd rfl h
  | cons x xs => exact foldl_max_mem xs x

lemma le_listMax (l : List ℚ) (a : ℚ) (ha : a ∈ l) : a ≤ listMax l := by
  cases l with
  | nil => simp at ha
  | cons x xs => exact foldl_le_max xs x a ha

lemma listMean_mul_length (l : List ℚ) (h : l ≠ []) :
    listMean l * l.length = l.sum := by
  rw [listMean]
  have hlen : (l.length : ℚ) ≠ 0 := by
    have := List.length_pos.mpr h
    positivity
  exact div_mul_cancel₀ _ hlen

lemma sampleVariance_nonneg (l : List ℚ) (h : 1 < l.length) :
    0 ≤ sampleVariance l := by
  rw [sampleVariance]
  apply div_nonneg
  · apply List.sum_nonneg
    intro x hx
    obtain ⟨y, -, rfl⟩ := List.mem_map.mp hx
    exact sq_nonneg _
  · have h2 : (2 : ℚ) ≤ (l.length : ℚ) := by exact_mod_cast h
    linarith

/-- C4: `Statistics.from_results` returns all-zero numeric fields with
`total_queries` equal to the input length when no response time is present;
otherwise `total_queries` is the input length, `success_rate` is the present
count over the input length, `min_time`/`max_time` are the least/greatest
present response times, `avg_time` times the present count is their sum,
`median_time` is their sorted median, and `std_dev` is 0 for fewer than two
samples and the nonnegative square root of the sample variance otherwise. -/
theorem from_results_spec (results : List DNSResult) (now : ℕ) :
    (valid_times results = [] →
      Statistics.from_results results now
        = ⟨0, 0, 0, 0, 0, 0, results.length, now⟩) ∧
    (valid_times results ≠ [] →
      (Statistics.from_results results now).total_queries = results.length ∧
      (Statistics.from_results results now).success_rate
        = ((valid_times results).length : ℚ) / (results.length : ℚ) ∧
      (Statistics.from_results results now).min_time ∈ valid_times results ∧
      (∀ x ∈ valid_times results,
        (Statistics.from_results results now).min_time ≤ x) ∧
      (Statistics.from_results results now).max_time ∈ valid_times results ∧
      (∀ x ∈ valid_times results,
        x ≤ (Statistics.from_results results now).max_time) ∧
      (Statistics.from_results results now).avg_time
          * ((valid_times results).length : ℚ) = (valid_times results).sum ∧
      (Statistics.from_results results now).median_time
        = listMedian (valid_times results) ∧
      ((valid_times results).length = 1 →
        (Statistics.from_results results now).std_dev = 0) ∧
      (1 < (valid_times results).length →
        (Statistics.from_results results now).std_dev ^ 2
            = ((sampleVariance (valid_times results) : ℚ) : ℝ) ∧
        0 ≤ (Statistics.from_results results now).std_dev)) := by
  constructor
  · intro h
    simp [Statistics.from_results, h]
  · intro h
    refine ⟨?_, ?_, ?_, ?_, ?_, ?_, ?_, ?_, ?_, ?_⟩
    · simp only [Statistics.from_results, if_neg h]
    · simp only [Statistics.from_results, if_neg h]
    · simp only [Statistics.from_results, if_neg h]
      exact listMin_mem _ h
    · intro x hx
      simp only [Statistics.from_results, if_neg h]
      exact listMin_le _ x hx
    · simp only [Statistics.from_results, if_neg h]
      exact listMax_mem _ h
    · intro x hx
      simp only [Statistics.from_results, if_neg h]
      exact le_listMax _ x hx
    · simp only [Statistics.from_results, if_neg h]
      exact listMean_mul_length _ h
    · simp only [Statistics.from_results, if_neg h]
    · intro h1
      simp [Statistics.from_results, if_neg h, h1]
    · intro h2
      simp only [Statistics.from_results, if_neg h, if_pos h2]
      have hv : (0 : ℝ) ≤ ((sampleVariance (valid_times results) : ℚ) : ℝ) := by
        exact_mod_cast sampleVariance_nonneg _ h2
      exact ⟨Real.sq_sqrt hv, Real.sqrt_nonneg _⟩

/-- Witness for C4 at a run with exactly one present response time: the
sample standard deviation is 0 and `total_queries` counts every slot. -/
theorem from_results_spec_witness :
    (Statistics.from_results
        ([⟨some 5, none, 0⟩, ⟨none, some "e", 0⟩] : List DNSResult) 0).std_dev
      = 0 ∧
    (Statistics.from_results
        ([⟨some 5, none, 0⟩, ⟨none, some "e", 0⟩] : List DNSResult) 0).total_queries
      = 2 := by
  have h := (from_results_spec
    ([⟨some 5, none, 0⟩, ⟨none, some "e", 0⟩] : List DNSResult) 0).2 (by decide)
  exact ⟨h.2.2.2.2.2.2.2.2.1 (by decide), h.1⟩
